import Mathlib

/-!
# Verification of the agentic-rag retrieval-and-decision pipeline

Shallow embedding of the core question-answering pipeline of the repository:
the document-selection, gating and response logic implemented twice in the
source, once inline in `app/main.py` (`ask`) and once as a langgraph graph in
`app/graph.py` (`_select_doc_node`, `_gate_node`, `_reason_node`,
`_abstain_out_node`, `run_qa`).

External collaborators (the embedder, the pgvector KNN search and the
generator) are modelled as parameters: the coarse hit list and the generator's
returned text are inputs of the embedded functions.  Distances are embedded as
rationals (the code uses Python floats only for comparisons and `min`, which
are exact on the values involved).
-/

namespace AgenticRag

/-- A retrieved chunk as returned by `retrieve_by_embedding` in
`app/retrieval.py`: a row `{doc_uri, chunk, meta, dist}` (metadata is not
consulted by the pipeline and is omitted). -/
structure Hit where
  doc_uri : String
  chunk : String
  dist : ℚ
deriving DecidableEq, Repr

/-- Python's binary `min` on two floats, embedded on ℚ: the first argument
wins ties.  Written as an explicit conditional so that concrete runs reduce
inside the kernel. -/
def ratMin (a b : ℚ) : ℚ := if a ≤ b then a else b

/-- `ratMin` agrees with the lattice `min` on ℚ. -/
theorem ratMin_eq_min (a b : ℚ) : ratMin a b = min a b := (min_def a b).symm

/-- Python's `max(2, n)`, embedded on ℤ as an explicit conditional. -/
def maxTwo (n : ℤ) : ℤ := if n ≤ 2 then 2 else n

/-- `maxTwo` agrees with the lattice `max`. -/
theorem maxTwo_eq_max (n : ℤ) : maxTwo n = max 2 n := by
  unfold maxTwo
  rcases le_total n 2 with h | h
  · simp [h, max_eq_left h]
  · rcases eq_or_lt_of_le h with rfl | hlt
    · simp
    · simp [not_le.mpr hlt, max_eq_right h]

/-- `2 ≤ maxTwo n` always: the floor of two context chunks. -/
theorem two_le_maxTwo (n : ℤ) : 2 ≤ maxTwo n := by
  unfold maxTwo
  split <;> omega

/-- `Counter(h["doc_uri"] for h in hits)[d]`: the number of coarse hits whose
`doc_uri` equals `d`. -/
def docCount (hits : List Hit) (d : String) : Nat :=
  (hits.map Hit.doc_uri).count d

/-- The per-document aggregate built by the loop
`doc_min[d] = min(doc_min.get(d, 1.0), float(h.get("dist", 1.0)))` in
`_select_doc_node` (and identically in `ask`): a fold of `min` over the
document's distances, seeded with `1.0`. -/
def docMin (hits : List Hit) (d : String) : ℚ :=
  hits.foldl (fun acc h => if h.doc_uri = d then ratMin acc h.dist else acc) 1

/-- The selection key `(doc_min[d], -doc_counts[d])` used in
`min(doc_min.keys(), key=lambda d: (doc_min[d], -doc_counts[d]))`. -/
def selKey (hits : List Hit) (d : String) : ℚ × ℤ :=
  (docMin hits d, -(docCount hits d : ℤ))

/-- Python's lexicographic `<` on the pair `(float, int)`. -/
def keyLt (a b : ℚ × ℤ) : Prop :=
  a.1 < b.1 ∨ (a.1 = b.1 ∧ a.2 < b.2)

instance (a b : ℚ × ℤ) : Decidable (keyLt a b) := by
  unfold keyLt; infer_instance

/-- `min(doc_min.keys(), key=...)`: the first document (in first-occurrence
order) whose key tuple is minimal.  Folding over all hit `doc_uri`s with a
strict-less update is equivalent: a repeated occurrence of a document never
replaces itself, so only first occurrences matter, and a later document
replaces the current best only on a strictly smaller key, which is exactly
how Python's `min` keeps the first minimiser.  The `[]` case is unreachable
behind the `if not hits` guard. -/
def bestDoc (hits : List Hit) : String :=
  match hits.map Hit.doc_uri with
  | [] => ""
  | d :: ds =>
    ds.foldl (fun b d2 => if keyLt (selKey hits d2) (selKey hits b) then d2 else b) d

/-- Stable insertion of a hit into a distance-sorted list: the new element
goes before the first strictly farther element, matching the stability of
Python's `sorted(..., key=lambda h: h["dist"])`. -/
def insertByDist (x : Hit) : List Hit → List Hit
  | [] => [x]
  | y :: ys => if y.dist < x.dist then y :: insertByDist x ys else x :: y :: ys

/-- `sorted(doc_hits, key=lambda h: h["dist"])`: stable sort ascending by
distance. -/
def sortByDist (l : List Hit) : List Hit :=
  l.foldr insertByDist []

/-- `min((float(h.get("dist", 1.0)) for h in doc_hits), default=1.0)`:
minimum distance of a hit list, `1.0` when empty. -/
def minDist (l : List Hit) : ℚ :=
  match l with
  | [] => 1
  | h :: t => t.foldl (fun acc g => ratMin acc g.dist) h.dist

/-- The narrowing step shared by `ask` and `_select_doc_node`:
`sorted([h for h in hits if h["doc_uri"] == best_doc], key=...)[: max(2, doc_ctx_chunks)]`. -/
def narrowHits (hits : List Hit) (docCtxChunks : ℤ) : List Hit :=
  ((sortByDist (hits.filter (fun h => h.doc_uri = bestDoc hits)))).take
    (maxTwo docCtxChunks).toNat

/-- `len(doc_counts)` in the debug output: the number of distinct documents
among the coarse hits. -/
def uniqueDocs (hits : List Hit) : Nat :=
  (hits.map Hit.doc_uri).dedup.length

/-- The gate predicate of `_gate_node` and of step 3 of `ask`:
`best_dist > max_cosine_dist or len(doc_hits) < min_hits`. -/
def gateAbstain (bestDist maxCosineDist : ℚ) (numDocHits : Nat) (minHits : ℤ) : Bool :=
  decide (bestDist > maxCosineDist) || decide ((numDocHits : ℤ) < minHits)

/-- Python's `str.strip()`: drop whitespace from both ends.  Implemented on
the character list so that concrete runs reduce inside the kernel. -/
def pyStrip (s : String) : String :=
  ⟨((s.data.dropWhile Char.isWhitespace).reverse.dropWhile
      Char.isWhitespace).reverse⟩

/-- The fixed abstain message returned on both abstain paths. -/
def abstainMsg : String :=
  "I don\x27t know that yet based on the current knowledge base."

/-- The debug mapping attached to a response.  JSON keys that a branch does
not emit are `none`. -/
structure Debug where
  reason : Option String := none
  best_dist : Option ℚ := none
  hits : Option Nat := none
  unique_docs : Option Nat := none
  selected_doc : Option String := none
  chunks_used : Option Nat := none
deriving DecidableEq, Repr

/-- The JSON body returned by `POST /ask` in `app/main.py`.  `abstained` is
an `Option Bool` because the success branch's dict literal has no
`"abstained"` key: `none` models the absent key. -/
structure AskResponse where
  answer : String
  citations : List String
  abstained : Option Bool
  debug : Debug
deriving DecidableEq, Repr

/-- The `ask` handler of `app/main.py` from the point where the coarse hits
are known (embedding and KNN search are the external collaborators producing
`coarseHits`; the generator's return value is `genRes`, `none` standing for
Python `None`).  Faithful to steps 2–5 of the handler:
empty-hits early return, document selection, narrowing, gate, and the two
response literals. -/
def ask (coarseHits : List Hit) (genRes : Option String)
    (maxCosineDist : ℚ) (minHits : ℤ) (docCtxChunks : ℤ) : AskResponse :=
  if coarseHits.isEmpty then
    { answer := abstainMsg, citations := [], abstained := some true,
      debug := { reason := some "no_hits" } }
  else
    let b := bestDoc coarseHits
    let dh := narrowHits coarseHits docCtxChunks
    let bd := minDist dh
    if gateAbstain bd maxCosineDist dh.length minHits then
      { answer := abstainMsg, citations := [], abstained := some true,
        debug := { best_dist := some bd, hits := some coarseHits.length,
                   unique_docs := some (uniqueDocs coarseHits),
                   selected_doc := some b } }
    else
      { answer := pyStrip (genRes.getD ""), citations := [b], abstained := none,
        debug := { best_dist := some bd, hits := some coarseHits.length,
                   unique_docs := some (uniqueDocs coarseHits),
                   selected_doc := some b, chunks_used := some dh.length } }

/-- The strict instruction prompt built in `_reason_node` (and step 4 of
`ask`) from the context block and the question. -/
def mkPrompt (context q : String) : String :=
  "You are a careful assistant. Answer ONLY from the context below.\n" ++
  "If the answer is not present, reply exactly: \"I don\x27t know.\"\n\nContext:\n" ++
  context ++ "\n\nQuestion: " ++ q ++
  "\nAnswer concisely. Provide a short phrase or sentence.\n"

/-- The `QAState` TypedDict of `app/graph.py`, restricted to the fields the
modelled stages read or write.  The four knobs are always set by `run_qa`;
the working fields are optional (`none` = key absent from the dict). -/
structure QAState where
  q : String
  max_cosine_dist : ℚ
  min_hits : ℤ
  doc_ctx_chunks : ℤ
  coarse_hits : Option (List Hit) := none
  best_doc : Option String := none
  doc_hits : Option (List Hit) := none
  best_dist : Option ℚ := none
  abstain : Option Bool := none
  answer : Option String := none
  citations : Option (List String) := none
  debug : Option Debug := none
deriving Repr

/-- `_select_doc_node`: on empty coarse hits set `abstain` and the
`no_hits` debug reason and return; otherwise select the best document,
narrow, and record `best_dist`. -/
def selectDocNode (s : QAState) : QAState :=
  let hits := s.coarse_hits.getD []
  if hits.isEmpty then
    { s with abstain := some true, debug := some { reason := some "no_hits" } }
  else
    let b := bestDoc hits
    let dh := narrowHits hits s.doc_ctx_chunks
    { s with
      best_doc := some b
      doc_hits := some dh
      best_dist := some (minDist dh) }

/-- `_gate_node`: `abstain` iff `state.get("best_dist", 1.0) >
max_cosine_dist or len(state.get("doc_hits") or []) < min_hits`. -/
def gateNode (s : QAState) : QAState :=
  { s with abstain := some (gateAbstain (s.best_dist.getD 1) s.max_cosine_dist
      (s.doc_hits.getD []).length s.min_hits) }

/-- `_reason_node`: indexes `state["doc_hits"]` and `state["best_doc"]`
directly, so a missing key is a `KeyError` (modelled as `Except.error`);
otherwise builds the context and prompt, calls the generator once and
records answer, single citation and debug trace. -/
def reasonNode (gen : String → Option String) (s : QAState) :
    Except String QAState :=
  match s.doc_hits with
  | none => Except.error "KeyError: doc_hits"
  | some dh =>
    let context := String.intercalate "\n\n" (dh.map (fun h => pyStrip h.chunk))
    let prompt := mkPrompt context s.q
    let ans := pyStrip ((gen prompt).getD "")
    match s.best_doc with
    | none => Except.error "KeyError: best_doc"
    | some b =>
      Except.ok { s with
        answer := some ans
        citations := some [b]
        debug := some {
          best_dist := s.best_dist
          hits := some (s.coarse_hits.getD []).length
          unique_docs := some (uniqueDocs (s.coarse_hits.getD []))
          selected_doc := s.best_doc
          chunks_used := some (s.doc_hits.getD []).length } }

/-- `_abstain_out_node`: fixed abstain answer, empty citations, and a debug
update (via `setdefault` + `update`, so an existing `reason` key
survives). -/
def abstainOutNode (s : QAState) : QAState :=
  let d0 := s.debug.getD {}
  { s with
    answer := some abstainMsg
    citations := some []
    debug := some { d0 with
      best_dist := s.best_dist
      hits := some (s.coarse_hits.getD []).length
      selected_doc := s.best_doc } }

/-- The dict returned by `run_qa`: answer, citations and debug — note there
is no `abstained` key in this shape. -/
structure RunQAOut where
  answer : String
  citations : List String
  debug : Debug
deriving DecidableEq, Repr

/-- `run_qa` of `app/graph.py`: initial state from the knobs, then the
compiled graph `embed → retrieve → select_doc → gate → (reason |
abstain_out)`.  The embed and retrieve stages call external collaborators;
their net effect on the modelled state is installing the coarse hit list
`retrieved`.  The conditional edge takes `reason` exactly when
`not state.get("abstain")`. -/
def runQA (gen : String → Option String) (retrieved : List Hit) (q : String)
    (maxCosineDist : ℚ) (minHits docCtxChunks : ℤ) : Except String RunQAOut :=
  let s0 : QAState := {
    q := q
    max_cosine_dist := maxCosineDist
    min_hits := minHits
    doc_ctx_chunks := docCtxChunks }
  let s1 : QAState := { s0 with coarse_hits := some retrieved }
  let s2 := selectDocNode s1
  let s3 := gateNode s2
  let step : Except String QAState :=
    if s3.abstain.getD false then Except.ok (abstainOutNode s3)
    else reasonNode gen s3
  match step with
  | Except.error e => Except.error e
  | Except.ok s4 =>
    match s4.answer, s4.citations with
    | some a, some c => Except.ok ⟨a, c, s4.debug.getD {}⟩
    | _, _ => Except.error "KeyError: answer"

/-! ## Order lemmas for the selection key -/

/-- The non-strict counterpart of `keyLt`: Python's `<=` on the pair. -/
def keyLe (a b : ℚ × ℤ) : Prop :=
  a.1 < b.1 ∨ (a.1 = b.1 ∧ a.2 ≤ b.2)

theorem keyLt_irrefl (a : ℚ × ℤ) : ¬ keyLt a a := by
  unfold keyLt
  rintro (h | ⟨-, h⟩) <;> exact lt_irrefl _ h

theorem keyLt_trans {a b c : ℚ × ℤ} (hab : keyLt a b) (hbc : keyLt b c) :
    keyLt a c := by
  unfold keyLt at *
  rcases hab with h1 | ⟨e1, h1⟩ <;> rcases hbc with h2 | ⟨e2, h2⟩
  · exact Or.inl (lt_trans h1 h2)
  · exact Or.inl (e2 ▸ h1)
  · exact Or.inl (e1 ▸ h2)
  · exact Or.inr ⟨e1.trans e2, lt_trans h1 h2⟩

theorem not_keyLt_iff {a b : ℚ × ℤ} : ¬ keyLt a b ↔ keyLe b a := by
  unfold keyLt keyLe
  constructor
  · intro h
    rcases lt_trichotomy a.1 b.1 with h1 | h1 | h1
    · exact absurd (Or.inl h1) h
    · refine Or.inr ⟨h1.symm, ?_⟩
      by_contra h2
      exact h (Or.inr ⟨h1, lt_of_not_le h2⟩)
    · exact Or.inl h1
  · rintro (h1 | ⟨e1, h1⟩) <;> rintro (h2 | ⟨e2, h2⟩)
    · exact lt_asymm h1 h2
    · exact absurd e2 (ne_of_gt h1)
    · exact absurd e1 (ne_of_gt h2)
    · exact lt_irrefl _ (lt_of_le_of_lt h1 h2)

theorem keyLe_keyLt_trans {a b c : ℚ × ℤ} (hab : keyLe a b) (hbc : keyLt b c) :
    keyLt a c := by
  unfold keyLe at hab
  unfold keyLt at *
  rcases hab with h1 | ⟨e1, h1⟩ <;> rcases hbc with h2 | ⟨e2, h2⟩
  · exact Or.inl (lt_trans h1 h2)
  · exact Or.inl (e2 ▸ h1)
  · exact Or.inl (e1 ▸ h2)
  · exact Or.inr ⟨e1.trans e2, lt_of_le_of_lt h1 h2⟩

/-! ## The arg-min fold behind `bestDoc` -/

/-- The fold step of `bestDoc`, abstracted over the key function. -/
def pickMin (k : String → ℚ × ℤ) (b d2 : String) : String :=
  if keyLt (k d2) (k b) then d2 else b

theorem foldl_pickMin_mem (k : String → ℚ × ℤ) (ds : List String) (d : String) :
    ds.foldl (pickMin k) d ∈ d :: ds := by
  induction ds generalizing d with
  | nil => simp
  | cons e ds ih =>
    simp only [List.foldl_cons]
    have h := ih (pickMin k d e)
    have hde : pickMin k d e = e ∨ pickMin k d e = d := by
      unfold pickMin; split <;> simp
    rcases List.mem_cons.mp h with h' | h'
    · rcases hde with he | hd
      · simp [h'.trans he]
      · simp [h'.trans hd]
    · simp [h']

theorem foldl_pickMin_min (k : String → ℚ × ℤ) (ds : List String) (d : String) :
    ∀ x ∈ d :: ds, ¬ keyLt (k x) (k (ds.foldl (pickMin k) d)) := by
  induction ds generalizing d with
  | nil =>
    intro x hx
    simp at hx
    subst hx
    simp only [List.foldl_nil]
    exact keyLt_irrefl _
  | cons e ds ih =>
    intro x hx
    simp only [List.foldl_cons]
    have hmem := List.mem_cons.mp hx
    have ih' := ih (pickMin k d e)
    by_cases hlt : keyLt (k e) (k d)
    · have hde : pickMin k d e = e := by simp [pickMin, hlt]
      rcases hmem with rfl | hmem'
      · -- x = d: e beats d, and the result is at most e
        intro hcon
        exact ih' e (by simp [hde]) (keyLt_trans hlt hcon)
      · rcases List.mem_cons.mp hmem' with rfl | hmem''
        · exact ih' x (by simp [hde])
        · exact ih' x (by simp [hmem''])
    · have hde : pickMin k d e = d := by simp [pickMin, hlt]
      rcases hmem with rfl | hmem'
      · exact ih' x (by simp [hde])
      · rcases List.mem_cons.mp hmem' with rfl | hmem''
        · -- x = e: d is no worse than e, and the result is at most d
          intro hcon
          exact ih' d (by simp [hde])
            (keyLe_keyLt_trans (not_keyLt_iff.mp hlt) hcon)
        · exact ih' x (by simp [hmem''])

theorem bestDoc_eq_foldl (h : Hit) (t : List Hit) :
    bestDoc (h :: t) =
      (t.map Hit.doc_uri).foldl (pickMin (selKey (h :: t))) h.doc_uri := rfl

/-- The selected document is one of the coarse hits' documents. -/
theorem bestDoc_mem (hits : List Hit) (hne : hits ≠ []) :
    bestDoc hits ∈ hits.map Hit.doc_uri := by
  match hits, hne with
  | h :: t, _ =>
    rw [bestDoc_eq_foldl]
    exact foldl_pickMin_mem _ _ _

/-- The selected document minimises the key `(doc_min, -votes)` over all
documents of the coarse hits. -/
theorem bestDoc_min (hits : List Hit) (hne : hits ≠ []) :
    ∀ d ∈ hits.map Hit.doc_uri,
      keyLe (selKey hits (bestDoc hits)) (selKey hits d) := by
  match hits, hne with
  | h :: t, _ =>
    intro d hd
    rw [bestDoc_eq_foldl]
    exact not_keyLt_iff.mp
      (foldl_pickMin_min (selKey (h :: t)) (t.map Hit.doc_uri) h.doc_uri d
        (by simpa using hd))

/-! ## Sorting lemmas -/

theorem insertByDist_perm (x : Hit) (l : List Hit) :
    List.Perm (insertByDist x l) (x :: l) := by
  induction l with
  | nil => rfl
  | cons y ys ih =>
    unfold insertByDist
    split
    · exact ((ih.cons y).trans (List.Perm.swap x y ys))
    · rfl

theorem sortByDist_perm (l : List Hit) : List.Perm (sortByDist l) l := by
  induction l with
  | nil => rfl
  | cons x xs ih =>
    exact (insertByDist_perm x (sortByDist xs)).trans (ih.cons x)

theorem mem_insertByDist {x g : Hit} {l : List Hit} :
    g ∈ insertByDist x l ↔ g = x ∨ g ∈ l := by
  rw [(insertByDist_perm x l).mem_iff]
  simp

/-- `insertByDist` keeps the list sorted ascending by distance. -/
theorem insertByDist_sorted (x : Hit) (l : List Hit)
    (hl : l.Sorted (fun a b => a.dist ≤ b.dist)) :
    (insertByDist x l).Sorted (fun a b => a.dist ≤ b.dist) := by
  induction l with
  | nil => simp [insertByDist]
  | cons y ys ih =>
    rw [List.sorted_cons] at hl
    unfold insertByDist
    split
    · rename_i hyx
      rw [List.sorted_cons]
      refine ⟨?_, ih hl.2⟩
      intro b hb
      rcases mem_insertByDist.mp hb with rfl | hb'
      · exact le_of_lt hyx
      · exact hl.1 b hb'
    · rename_i hyx
      rw [List.sorted_cons]
      refine ⟨?_, List.sorted_cons.mpr hl⟩
      intro b hb
      rcases List.mem_cons.mp hb with rfl | hb'
      · exact le_of_not_lt hyx
      · exact le_trans (le_of_not_lt hyx) (hl.1 b hb')

theorem sortByDist_sorted (l : List Hit) :
    (sortByDist l).Sorted (fun a b => a.dist ≤ b.dist) := by
  induction l with
  | nil => simp [sortByDist]
  | cons x xs ih => exact insertByDist_sorted x (sortByDist xs) ih

theorem sortByDist_eq_nil_iff {l : List Hit} : sortByDist l = [] ↔ l = [] := by
  constructor
  · intro h
    have := (sortByDist_perm l).length_eq
    rw [h] at this
    exact List.length_eq_zero.mp this.symm
  · rintro rfl; rfl

/-! ## Minimum-distance lemmas -/

theorem foldl_ratMin_le_init (t : List Hit) (a : ℚ) :
    t.foldl (fun acc g => ratMin acc g.dist) a ≤ a := by
  induction t generalizing a with
  | nil => simp
  | cons g t ih =>
    simp only [List.foldl_cons]
    exact le_trans (ih (ratMin a g.dist)) (by rw [ratMin_eq_min]; exact min_le_left _ _)

theorem foldl_ratMin_le_mem (t : List Hit) (a : ℚ) :
    ∀ g ∈ t, t.foldl (fun acc g => ratMin acc g.dist) a ≤ g.dist := by
  induction t generalizing a with
  | nil => simp
  | cons g t ih =>
    intro g' hg'
    simp only [List.foldl_cons]
    rcases List.mem_cons.mp hg' with rfl | hg''
    · exact le_trans (foldl_ratMin_le_init t _) (by rw [ratMin_eq_min]; exact min_le_right _ _)
    · exact ih (ratMin a g.dist) g' hg''

theorem foldl_ratMin_cases (t : List Hit) (a : ℚ) :
    t.foldl (fun acc g => ratMin acc g.dist) a = a ∨
      ∃ g ∈ t, t.foldl (fun acc g => ratMin acc g.dist) a = g.dist := by
  induction t generalizing a with
  | nil => simp
  | cons g t ih =>
    simp only [List.foldl_cons]
    rcases ih (ratMin a g.dist) with h | ⟨g', hg', h⟩
    · rw [h, ratMin_eq_min]
      rcases min_cases a g.dist with ⟨h', -⟩ | ⟨h', -⟩
      · exact Or.inl h'
      · exact Or.inr ⟨g, List.mem_cons_self _ _, h'⟩
    · exact Or.inr ⟨g', List.mem_cons_of_mem _ hg', h⟩

theorem minDist_cons (h : Hit) (t : List Hit) :
    minDist (h :: t) = t.foldl (fun acc g => ratMin acc g.dist) h.dist := rfl

/-- The recorded `best_dist` bounds every kept hit's distance from below. -/
theorem minDist_le (l : List Hit) : ∀ g ∈ l, minDist l ≤ g.dist := by
  intro g hg
  match l, hg with
  | h :: t, hg =>
    rw [minDist_cons]
    rcases List.mem_cons.mp hg with rfl | hg'
    · exact foldl_ratMin_le_init t _
    · exact foldl_ratMin_le_mem t _ g hg'

/-- On a non-empty list the recorded `best_dist` is one of the distances. -/
theorem minDist_mem (l : List Hit) (hne : l ≠ []) :
    minDist l ∈ l.map Hit.dist := by
  match l, hne with
  | h :: t, _ =>
    rw [minDist_cons]
    rcases foldl_ratMin_cases t h.dist with h' | ⟨g, hg, h'⟩
    · rw [h']; exact List.mem_map_of_mem _ (List.mem_cons_self _ _)
    · rw [h']; exact List.mem_map_of_mem _ (List.mem_cons_of_mem _ hg)

/-! ## Per-document aggregate lemmas -/

theorem ratMin_assoc (a b c : ℚ) : ratMin (ratMin a b) c = ratMin a (ratMin b c) := by
  simp only [ratMin_eq_min]
  exact min_assoc a b c

theorem ratMin_self (a : ℚ) : ratMin a a = a := by simp [ratMin]

theorem foldl_ratMin_pull (t : List Hit) (a b : ℚ) :
    t.foldl (fun acc g => ratMin acc g.dist) (ratMin a b) =
      ratMin a (t.foldl (fun acc g => ratMin acc g.dist) b) := by
  induction t generalizing a b with
  | nil => rfl
  | cons g t ih =>
    simp only [List.foldl_cons]
    rw [ratMin_assoc, ih]

/-- `docMin` only looks at the document's own hits: it is the conditional
fold collapsed onto the filtered list. -/
theorem docMin_eq_foldl_filter (hits : List Hit) (d : String) :
    docMin hits d =
      (hits.filter (fun h => h.doc_uri = d)).foldl
        (fun acc h => ratMin acc h.dist) 1 := by
  unfold docMin
  generalize (1 : ℚ) = a
  induction hits generalizing a with
  | nil => rfl
  | cons h t ih =>
    simp only [List.foldl_cons, List.filter_cons]
    by_cases hd : h.doc_uri = d
    · simp only [hd, if_true, decide_eq_true_eq]
      rw [ih]
      simp
    · simp only [if_neg hd]
      rw [ih a]
      simp [hd]

/-- The computed per-document aggregate is the document's true minimum
distance clamped from above by the `1.0` seed. -/
theorem docMin_eq_clamped (hits : List Hit) (d : String) :
    docMin hits d =
      ratMin 1 (minDist (hits.filter (fun h => h.doc_uri = d))) := by
  rw [docMin_eq_foldl_filter]
  rcases hf : hits.filter (fun h => h.doc_uri = d) with - | ⟨g, t⟩
  · rw [hf]
    simp [minDist, ratMin_self]
  · rw [hf, List.foldl_cons, minDist_cons, foldl_ratMin_pull]

/-- `vote_count` is the size of the document's group of coarse hits. -/
theorem docCount_eq_filter_length (hits : List Hit) (d : String) :
    docCount hits d = (hits.filter (fun h => h.doc_uri = d)).length := by
  unfold docCount
  induction hits with
  | nil => rfl
  | cons h t ih =>
    simp only [List.map_cons, List.count_cons, List.filter_cons]
    by_cases hd : h.doc_uri = d
    · simp [hd, ih]
    · simp [hd, ih]

/-! ## Narrowing lemmas -/

theorem narrowHits_sorted (hits : List Hit) (ctx : ℤ) :
    (narrowHits hits ctx).Sorted (fun a b => a.dist ≤ b.dist) := by
  unfold narrowHits
  exact (sortByDist_sorted _).sublist (List.take_sublist _ _)

theorem mem_narrowHits {hits : List Hit} {ctx : ℤ} {h : Hit}
    (hm : h ∈ narrowHits hits ctx) :
    h ∈ hits ∧ h.doc_uri = bestDoc hits := by
  unfold narrowHits at hm
  have h1 : h ∈ sortByDist (hits.filter (fun g => g.doc_uri = bestDoc hits)) :=
    List.take_subset _ _ hm
  have h2 : h ∈ hits.filter (fun g => g.doc_uri = bestDoc hits) :=
    (sortByDist_perm _).subset h1
  have h3 := List.mem_filter.mp h2
  exact ⟨h3.1, by simpa using h3.2⟩

theorem narrowHits_length_le (hits : List Hit) (ctx : ℤ) :
    (narrowHits hits ctx).length ≤ (maxTwo ctx).toNat := by
  unfold narrowHits
  exact List.length_take_le _ _

theorem narrowHits_length_eq (hits : List Hit) (ctx : ℤ) :
    (narrowHits hits ctx).length =
      min (maxTwo ctx).toNat
        (hits.filter (fun g => g.doc_uri = bestDoc hits)).length := by
  unfold narrowHits
  rw [List.length_take, (sortByDist_perm _).length_eq]

/-- The narrowed set of a non-empty coarse hit list is never empty: the
selected document contributes at least one hit, and the truncation bound is
at least two. -/
theorem narrowHits_ne_nil (hits : List Hit) (ctx : ℤ) (hne : hits ≠ []) :
    narrowHits hits ctx ≠ [] := by
  intro hcon
  have hlen := narrowHits_length_eq hits ctx
  rw [hcon] at hlen
  simp only [List.length_nil] at hlen
  have h2 : 2 ≤ maxTwo ctx := two_le_maxTwo ctx
  have hb : 1 ≤ (maxTwo ctx).toNat := by omega
  have hm := bestDoc_mem hits hne
  rcases List.mem_map.mp hm with ⟨g, hg, hgu⟩
  have hfm : g ∈ hits.filter (fun g => g.doc_uri = bestDoc hits) :=
    List.mem_filter.mpr ⟨hg, by simpa using hgu⟩
  have hfl : 1 ≤ (hits.filter (fun g => g.doc_uri = bestDoc hits)).length :=
    List.length_pos.mpr (List.ne_nil_of_mem hfm)
  omega

/-- At least two chunks are kept whenever the selected document has at
least two coarse hits, regardless of how small `doc_ctx_chunks` is. -/
theorem narrowHits_two_kept (hits : List Hit) (ctx : ℤ)
    (hfl : 2 ≤ (hits.filter (fun g => g.doc_uri = bestDoc hits)).length) :
    2 ≤ (narrowHits hits ctx).length := by
  rw [narrowHits_length_eq]
  have h2 : 2 ≤ maxTwo ctx := two_le_maxTwo ctx
  omega

/-- When the selected document's group fits inside the truncation bound,
narrowing keeps exactly that group (as a permutation: it is re-sorted). -/
theorem narrowHits_perm_filter (hits : List Hit) (ctx : ℤ)
    (hfit : (hits.filter (fun g => g.doc_uri = bestDoc hits)).length ≤
      (maxTwo ctx).toNat) :
    List.Perm (narrowHits hits ctx)
      (hits.filter (fun g => g.doc_uri = bestDoc hits)) := by
  unfold narrowHits
  rw [List.take_of_length_le (by rw [(sortByDist_perm _).length_eq]; exact hfit)]
  exact sortByDist_perm _

/-! ## Branch lemmas for `ask` and `run_qa` -/

theorem ask_nil (genRes : Option String) (mc : ℚ) (mh ctx : ℤ) :
    ask [] genRes mc mh ctx =
      ⟨abstainMsg, [], some true, { reason := some "no_hits" }⟩ := rfl

theorem ask_gate_true {hits : List Hit} (genRes : Option String) {mc : ℚ}
    {mh : ℤ} {ctx : ℤ} (hne : hits ≠ [])
    (hg : gateAbstain (minDist (narrowHits hits ctx)) mc
      (narrowHits hits ctx).length mh = true) :
    ask hits genRes mc mh ctx =
      ⟨abstainMsg, [], some true,
        { best_dist := some (minDist (narrowHits hits ctx)),
          hits := some hits.length, unique_docs := some (uniqueDocs hits),
          selected_doc := some (bestDoc hits) }⟩ := by
  unfold ask
  rw [if_neg (by simp [hne]), if_pos hg]

theorem ask_gate_false {hits : List Hit} (genRes : Option String) {mc : ℚ}
    {mh : ℤ} {ctx : ℤ} (hne : hits ≠ [])
    (hg : gateAbstain (minDist (narrowHits hits ctx)) mc
      (narrowHits hits ctx).length mh = false) :
    ask hits genRes mc mh ctx =
      ⟨pyStrip (genRes.getD ""), [bestDoc hits], none,
        { best_dist := some (minDist (narrowHits hits ctx)),
          hits := some hits.length, unique_docs := some (uniqueDocs hits),
          selected_doc := some (bestDoc hits),
          chunks_used := some (narrowHits hits ctx).length }⟩ := by
  unfold ask
  rw [if_neg (by simp [hne]), if_neg (by simp [hg])]

/-- With no coarse hits, `run_qa`'s graph still runs the gate node; the
gate re-derives `abstain = true` exactly when the default `best_dist` of
`1.0` exceeds the threshold or `min_hits` is positive. -/
theorem runQA_nil (gen : String → Option String) (q : String) (mc : ℚ)
    (mh ctx : ℤ) (hsane : mc < 1 ∨ 1 ≤ mh) :
    runQA gen [] q mc mh ctx =
      Except.ok ⟨abstainMsg, [],
        { reason := some "no_hits", hits := some 0 }⟩ := by
  have hg : gateAbstain 1 mc 0 mh = true := by
    unfold gateAbstain
    rcases hsane with h | h
    · simp [h]
    · have : (0 : ℤ) < mh := by omega
      simp [this]
  unfold runQA
  simp only [selectDocNode, gateNode, abstainOutNode]
  simp [hg]

/-! ## Concrete inputs used by examples and counterexamples -/

/-- Example 1 of the specification: coarse hits
`[{doc:"A",dist:0.40},{doc:"A",dist:0.50},{doc:"B",dist:0.30}]`. -/
def exampleHits : List Hit :=
  [⟨"A", "a1", mkRat 2 5⟩, ⟨"A", "a2", mkRat 1 2⟩, ⟨"B", "b1", mkRat 3 10⟩]

/-- Coarse hits whose distances all exceed `1.0`: document `A` has true
minimum distance `1.2`, document `B` has `1.3`, but the `1.0` seed of the
`doc_min` fold clamps both groups to `1.0`. -/
def clampHits : List Hit :=
  [⟨"A", "a", mkRat 6 5⟩, ⟨"B", "b", mkRat 7 5⟩, ⟨"B", "c", mkRat 13 10⟩]

/-- A single hit at cosine distance `1.6 ∈ [0,2]`. -/
def farHit : List Hit := [⟨"D", "far", mkRat 8 5⟩]

/-! ## Claims -/

/-- C1, counterexample: on `clampHits`, document `A` has the strictly
smallest per-document minimum distance (`1.2 < 1.3`), yet the code selects
`B` — the `1.0` seed of the `doc_min` fold clamps both groups to `1.0`, and
the vote tie-break then favours `B`.  So the closest-single-match-wins rule
of the claim fails for distances above `1.0`. -/
theorem C1_select_cex :
    bestDoc clampHits = "B" ∧
    "A" ∈ clampHits.map Hit.doc_uri ∧
    minDist (clampHits.filter (fun h => h.doc_uri = "A")) <
      minDist (clampHits.filter (fun h => h.doc_uri = "B")) := by
  refine ⟨by decide, by decide, by decide⟩

/-- C1, amended: the select-document stage picks the document minimising
the lexicographic tuple `(min(1.0, min_distance), -vote_count)` — the
per-document minimum distance is clamped from above by the `1.0` seed
before comparison.  The concrete Example 1 behaves as the claim states:
`"B"` is selected, `doc_hits` is the single B entry and
`best_distance = 0.30`. -/
theorem C1_select_min_tuple :
    (∀ hits : List Hit, hits ≠ [] →
      bestDoc hits ∈ hits.map Hit.doc_uri ∧
      ∀ d ∈ hits.map Hit.doc_uri,
        keyLe (selKey hits (bestDoc hits)) (selKey hits d)) ∧
    (∀ (hits : List Hit) (d : String),
      selKey hits d =
        (ratMin 1 (minDist (hits.filter (fun h => h.doc_uri = d))),
          -((hits.filter (fun h => h.doc_uri = d)).length : ℤ))) ∧
    (bestDoc exampleHits = "B" ∧
      narrowHits exampleHits 4 = [⟨"B", "b1", mkRat 3 10⟩] ∧
      minDist (narrowHits exampleHits 4) = mkRat 3 10) := by
  refine ⟨?_, ?_, by decide, by decide, by decide⟩
  · intro hits hne
    exact ⟨bestDoc_mem hits hne, bestDoc_min hits hne⟩
  · intro hits d
    unfold selKey
    rw [docMin_eq_clamped, docCount_eq_filter_length]

/-- C1, witness: the minimality statement applied to Example 1's hits. -/
theorem C1_select_min_tuple_witness :
    exampleHits ≠ [] ∧
    (bestDoc exampleHits ∈ exampleHits.map Hit.doc_uri ∧
      ∀ d ∈ exampleHits.map Hit.doc_uri,
        keyLe (selKey exampleHits (bestDoc exampleHits))
          (selKey exampleHits d)) :=
  ⟨by decide, C1_select_min_tuple.1 exampleHits (by decide)⟩

/-- C4, counterexample: for the single hit of `farHit` at distance `1.6`,
the computed group aggregate `doc_min["D"]` is `1.0`, not the smallest
distance `1.6` among the document's hits. -/
theorem C4_group_cex :
    docMin farHit "D" = 1 ∧
    minDist (farHit.filter (fun h => h.doc_uri = "D")) = mkRat 8 5 ∧
    (1 : ℚ) ≠ mkRat 8 5 := by
  refine ⟨by decide, by decide, by decide⟩

/-- C4, amended: per document group `vote_count` is exactly the number of
that document's hits, and the computed `min_distance` is
`min(1.0, smallest distance among the document's hits)` — the fold is
seeded with `1.0`, so the aggregate is clamped from above by `1.0` (they
agree whenever all the group's distances are at most `1.0`, and in
particular on all of `[0,1]`).  `minDist` of the group really is the
group's smallest distance: it is attained and is a lower bound. -/
theorem C4_group_aggregates :
    ∀ (hits : List Hit) (d : String),
      docMin hits d =
        ratMin 1 (minDist (hits.filter (fun h => h.doc_uri = d))) ∧
      docCount hits d = (hits.filter (fun h => h.doc_uri = d)).length ∧
      (hits.filter (fun h => h.doc_uri = d) ≠ [] →
        minDist (hits.filter (fun h => h.doc_uri = d)) ∈
          (hits.filter (fun h => h.doc_uri = d)).map Hit.dist ∧
        ∀ h ∈ hits.filter (fun h => h.doc_uri = d),
          minDist (hits.filter (fun h => h.doc_uri = d)) ≤ h.dist) := by
  intro hits d
  refine ⟨docMin_eq_clamped hits d, docCount_eq_filter_length hits d, ?_⟩
  intro hne
  exact ⟨minDist_mem _ hne, minDist_le _⟩

/-- C4, witness: the aggregate facts evaluated on Example 1's hits for
document `"A"`. -/
theorem C4_group_aggregates_witness :
    (exampleHits.filter (fun h => h.doc_uri = "A") ≠ []) ∧
    docMin exampleHits "A" =
      ratMin 1 (minDist (exampleHits.filter (fun h => h.doc_uri = "A"))) ∧
    (minDist (exampleHits.filter (fun h => h.doc_uri = "A")) ∈
      (exampleHits.filter (fun h => h.doc_uri = "A")).map Hit.dist ∧
    ∀ h ∈ exampleHits.filter (fun h => h.doc_uri = "A"),
      minDist (exampleHits.filter (fun h => h.doc_uri = "A")) ≤ h.dist) :=
  ⟨by decide, (C4_group_aggregates exampleHits "A").1,
    (C4_group_aggregates exampleHits "A").2.2 (by decide)⟩

/-- C2: the gate abstains iff `best_distance > max_cosine_dist` or the
narrowed hit count is strictly below `min_hits`; `_gate_node` records
exactly this predicate; when it is false the `ask` pipeline proceeds to
generation (answering response, no `abstained` key); and with
`min_hits = 2` a narrowed set of length `1` abstains regardless of
distance. -/
theorem C2_gate_iff :
    (∀ (bd mc : ℚ) (n : Nat) (mh : ℤ),
      gateAbstain bd mc n mh = true ↔ (mc < bd ∨ (n : ℤ) < mh)) ∧
    (∀ s : QAState,
      (gateNode s).abstain = some (gateAbstain (s.best_dist.getD 1)
        s.max_cosine_dist (s.doc_hits.getD []).length s.min_hits)) ∧
    (∀ (hits : List Hit) (gen : Option String) (mc : ℚ) (mh ctx : ℤ),
      hits ≠ [] →
      gateAbstain (minDist (narrowHits hits ctx)) mc
        (narrowHits hits ctx).length mh = false →
      (ask hits gen mc mh ctx).abstained = none) ∧
    (∀ (bd mc : ℚ) (dh : List Hit), dh.length = 1 →
      gateAbstain bd mc dh.length 2 = true) := by
  refine ⟨?_, ?_, ?_, ?_⟩
  · intro bd mc n mh
    unfold gateAbstain
    simp [gt_iff_lt]
  · intro s
    rfl
  · intro hits gen mc mh ctx hne hg
    rw [ask_gate_false gen hne hg]
  · intro bd mc dh hlen
    unfold gateAbstain
    rw [hlen]
    simp

/-- C2, witness: Example 3's shape — one narrowed hit against
`min_hits = 2` abstains even at a tiny distance. -/
theorem C2_gate_iff_witness :
    ([⟨"A", "t", mkRat 1 10⟩] : List Hit).length = 1 ∧
    gateAbstain (mkRat 1 10) (mkRat 65 100)
      ([⟨"A", "t", mkRat 1 10⟩] : List Hit).length 2 = true :=
  ⟨by decide, C2_gate_iff.2.2.2 (mkRat 1 10) (mkRat 65 100)
    [⟨"A", "t", mkRat 1 10⟩] (by decide)⟩

/-- C9: gate monotonicity — for a fixed narrowed set and best distance,
raising the distance threshold preserves a passing gate, and lowering
`min_hits` preserves a passing gate. -/
theorem C9_gate_monotone :
    (∀ (bd : ℚ) (n : Nat) (mh : ℤ) (t t2 : ℚ), t ≤ t2 →
      gateAbstain bd t n mh = false → gateAbstain bd t2 n mh = false) ∧
    (∀ (bd mc : ℚ) (n : Nat) (mh mh2 : ℤ), mh2 ≤ mh →
      gateAbstain bd mc n mh = false → gateAbstain bd mc n mh2 = false) := by
  constructor
  · intro bd n mh t t2 ht hg
    unfold gateAbstain at *
    simp only [Bool.or_eq_false_iff, decide_eq_false_iff_not, not_lt] at *
    exact ⟨le_trans hg.1 ht, hg.2⟩
  · intro bd mc n mh mh2 hm hg
    unfold gateAbstain at *
    simp only [Bool.or_eq_false_iff, decide_eq_false_iff_not, not_lt] at *
    exact ⟨hg.1, le_trans hm hg.2⟩

/-- C9, witness: a gate passing at threshold `0.65` still passes at
`0.72`, and one passing at `min_hits = 1` still passes at `min_hits = 0`. -/
theorem C9_gate_monotone_witness :
    (mkRat 65 100 ≤ mkRat 72 100 ∧
      gateAbstain (mkRat 3 10) (mkRat 65 100) 2 1 = false ∧
      gateAbstain (mkRat 3 10) (mkRat 72 100) 2 1 = false) ∧
    ((0 : ℤ) ≤ 1 ∧ gateAbstain (mkRat 3 10) (mkRat 65 100) 2 0 = false) :=
  ⟨⟨by decide, by decide,
    C9_gate_monotone.1 (mkRat 3 10) 2 1 (mkRat 65 100) (mkRat 72 100)
      (by decide) (by decide)⟩,
   ⟨by decide,
    C9_gate_monotone.2 (mkRat 3 10) (mkRat 65 100) 2 1 0
      (by decide) (by decide)⟩⟩

/-- C3, counterexample: in the graph pipeline the gate stage is not
skipped after the no-hits short-circuit.  With zero coarse hits,
`max_cosine_dist = 1.5` and `min_hits = 0` the gate re-derives
`abstain = false` (the default `best_dist` of `1.0` does not exceed the
threshold and `0 ≥ min_hits`), the reason branch then runs, and the missing
`doc_hits` key raises a `KeyError` — no abstained Answer with reason
`"no_hits"` is returned for this configuration. -/
theorem C3_no_hits_cex :
    runQA (fun _ => some "ok") [] "q" (mkRat 3 2) 0 4 =
      Except.error "KeyError: doc_hits" := by rfl

/-- C3, amended: on zero coarse hits the `ask` pipeline returns the
abstained answer with empty citations and debug reason `"no_hits"` for
every configuration; the graph pipeline (`run_qa`) does run its gate stage
after the no-hits short-circuit, and returns the abstained answer with
reason `"no_hits"` only for configurations with `max_cosine_dist < 1.0` or
`min_hits ≥ 1` (which includes the defaults). -/
theorem C3_no_hits :
    (∀ (gen : Option String) (mc : ℚ) (mh ctx : ℤ),
      ask [] gen mc mh ctx =
        ⟨abstainMsg, [], some true, { reason := some "no_hits" }⟩) ∧
    (∀ (gen : String → Option String) (q : String) (mc : ℚ) (mh ctx : ℤ),
      (mc < 1 ∨ 1 ≤ mh) →
      runQA gen [] q mc mh ctx =
        Except.ok ⟨abstainMsg, [],
          { reason := some "no_hits", hits := some 0 }⟩) := by
  exact ⟨fun gen mc mh ctx => ask_nil gen mc mh ctx,
    fun gen q mc mh ctx hsane => runQA_nil gen q mc mh ctx hsane⟩

/-- C3, witness: the default configuration (`max_cosine_dist = 0.65`,
`min_hits = 1`) abstains with reason `"no_hits"` on zero coarse hits in
both pipelines. -/
theorem C3_no_hits_witness :
    ((mkRat 65 100 < 1 ∨ (1 : ℤ) ≤ 1) ∧
      runQA (fun _ => none) [] "q" (mkRat 65 100) 1 4 =
        Except.ok ⟨abstainMsg, [],
          { reason := some "no_hits", hits := some 0 }⟩) ∧
    ask [] none (mkRat 65 100) 1 4 =
      ⟨abstainMsg, [], some true, { reason := some "no_hits" }⟩ :=
  ⟨⟨Or.inr (by decide),
    C3_no_hits.2 (fun _ => none) "q" (mkRat 65 100) 1 4 (Or.inr (by decide))⟩,
   C3_no_hits.1 none (mkRat 65 100) 1 4⟩

/-- C5: after the select-document stage on a non-empty coarse hit list,
the narrowed `doc_hits` are the selected document's hits, sorted ascending
by distance, truncated to at most `max(2, doc_ctx_chunks)` entries with a
floor of two, kept in full (up to re-sorting) when the group fits the
bound; the stage records `best_dist` as the minimum distance among the
kept hits (attained and a lower bound), with `1.0` the defined fallback on
an empty kept set. -/
theorem C5_narrowing :
    ∀ (hits : List Hit) (ctx : ℤ), hits ≠ [] →
      (narrowHits hits ctx).Sorted (fun a b => a.dist ≤ b.dist) ∧
      (∀ h ∈ narrowHits hits ctx, h ∈ hits ∧ h.doc_uri = bestDoc hits) ∧
      (narrowHits hits ctx).length ≤ (maxTwo ctx).toNat ∧
      (2 : ℤ) ≤ maxTwo ctx ∧
      narrowHits hits ctx ≠ [] ∧
      (2 ≤ (hits.filter (fun g => g.doc_uri = bestDoc hits)).length →
        2 ≤ (narrowHits hits ctx).length) ∧
      ((hits.filter (fun g => g.doc_uri = bestDoc hits)).length ≤
          (maxTwo ctx).toNat →
        List.Perm (narrowHits hits ctx)
          (hits.filter (fun g => g.doc_uri = bestDoc hits))) ∧
      (minDist (narrowHits hits ctx) ∈ (narrowHits hits ctx).map Hit.dist ∧
        ∀ h ∈ narrowHits hits ctx, minDist (narrowHits hits ctx) ≤ h.dist) ∧
      minDist ([] : List Hit) = 1 ∧
      (∀ s : QAState, s.coarse_hits = some hits →
        (selectDocNode s).doc_hits =
          some (narrowHits hits s.doc_ctx_chunks) ∧
        (selectDocNode s).best_dist =
          some (minDist (narrowHits hits s.doc_ctx_chunks))) := by
  intro hits ctx hne
  refine ⟨narrowHits_sorted hits ctx, fun h hm => mem_narrowHits hm,
    narrowHits_length_le hits ctx, two_le_maxTwo ctx,
    narrowHits_ne_nil hits ctx hne, narrowHits_two_kept hits ctx,
    narrowHits_perm_filter hits ctx,
    ⟨minDist_mem _ (narrowHits_ne_nil hits ctx hne), minDist_le _⟩,
    rfl, ?_⟩
  intro s hs
  unfold selectDocNode
  rw [hs]
  simp only [Option.getD_some]
  rw [if_neg (by simp [hne])]
  exact ⟨rfl, rfl⟩

/-- C5, witness: the narrowing facts evaluated on Example 1's hits with
`doc_ctx_chunks = 4`. -/
theorem C5_narrowing_witness :
    exampleHits ≠ [] ∧
    ((narrowHits exampleHits 4).Sorted (fun a b => a.dist ≤ b.dist) ∧
      (∀ h ∈ narrowHits exampleHits 4,
        h ∈ exampleHits ∧ h.doc_uri = bestDoc exampleHits) ∧
      (narrowHits exampleHits 4).length ≤ (maxTwo 4).toNat ∧
      (2 : ℤ) ≤ maxTwo 4 ∧
      narrowHits exampleHits 4 ≠ [] ∧
      (2 ≤ (exampleHits.filter
          (fun g => g.doc_uri = bestDoc exampleHits)).length →
        2 ≤ (narrowHits exampleHits 4).length) ∧
      ((exampleHits.filter
          (fun g => g.doc_uri = bestDoc exampleHits)).length ≤
          (maxTwo 4).toNat →
        List.Perm (narrowHits exampleHits 4)
          (exampleHits.filter (fun g => g.doc_uri = bestDoc exampleHits))) ∧
      (minDist (narrowHits exampleHits 4) ∈
          (narrowHits exampleHits 4).map Hit.dist ∧
        ∀ h ∈ narrowHits exampleHits 4,
          minDist (narrowHits exampleHits 4) ≤ h.dist) ∧
      minDist ([] : List Hit) = 1 ∧
      (∀ s : QAState, s.coarse_hits = some exampleHits →
        (selectDocNode s).doc_hits =
          some (narrowHits exampleHits s.doc_ctx_chunks) ∧
        (selectDocNode s).best_dist =
          some (minDist (narrowHits exampleHits s.doc_ctx_chunks)))) :=
  ⟨by decide, C5_narrowing exampleHits 4 (by decide)⟩

/-- C6: an abstained `ask` response always carries empty citations and the
fixed abstain message, on both the no-hits path and the gate-failure path;
the graph's `_abstain_out_node` likewise always writes the fixed message
and empty citations. -/
theorem C6_abstain_invariant :
    (∀ (hits : List Hit) (gen : Option String) (mc : ℚ) (mh ctx : ℤ),
      (ask hits gen mc mh ctx).abstained = some true →
      (ask hits gen mc mh ctx).citations = [] ∧
      (ask hits gen mc mh ctx).answer = abstainMsg) ∧
    (∀ s : QAState,
      (abstainOutNode s).answer = some abstainMsg ∧
      (abstainOutNode s).citations = some []) := by
  constructor
  · intro hits gen mc mh ctx habs
    by_cases hne : hits = []
    · subst hne
      rw [ask_nil]
      exact ⟨rfl, rfl⟩
    · by_cases hg : gateAbstain (minDist (narrowHits hits ctx)) mc
        (narrowHits hits ctx).length mh = true
      · rw [ask_gate_true gen hne hg]
        exact ⟨rfl, rfl⟩
      · rw [ask_gate_false gen hne (Bool.not_eq_true _ ▸ hg)] at habs
        exact absurd habs (by simp)
  · intro s
    exact ⟨rfl, rfl⟩

/-- C6, witness: the invariant on the concrete no-hits response. -/
theorem C6_abstain_invariant_witness :
    (ask [] none (mkRat 65 100) 1 4).abstained = some true ∧
    ((ask [] none (mkRat 65 100) 1 4).citations = [] ∧
      (ask [] none (mkRat 65 100) 1 4).answer = abstainMsg) :=
  ⟨by decide, C6_abstain_invariant.1 [] none (mkRat 65 100) 1 4 (by decide)⟩

/-- C7, counterexample: a gate-passing request — one hit at distance
`0.1` under the default knobs — returns the answering response, whose JSON
body has no `abstained` key at all (modelled by `none`); so the returned
structure does not always carry an `abstained` boolean. -/
theorem C7_abstained_field_cex :
    (ask [⟨"A", "t", mkRat 1 10⟩] (some "Paris")
        (mkRat 65 100) 1 4).abstained = none ∧
    (ask [⟨"A", "t", mkRat 1 10⟩] (some "Paris")
        (mkRat 65 100) 1 4).citations = ["A"] := by
  refine ⟨by rfl, by rfl⟩

/-- C7, amended: only the abstaining responses of `/ask` carry the
`abstained` field, and it is then always `true`; the answering response
omits the key (and `run_qa`'s result shape has no `abstained` key on any
path).  The two outcomes are distinguishable by the presence of the field
or, equivalently, by whether `citations` is empty. -/
theorem C7_abstained_field :
    ∀ (hits : List Hit) (gen : Option String) (mc : ℚ) (mh ctx : ℤ),
      ((ask hits gen mc mh ctx).abstained = some true ↔
        (ask hits gen mc mh ctx).citations = []) ∧
      ((ask hits gen mc mh ctx).abstained = some true ∨
        (ask hits gen mc mh ctx).abstained = none) := by
  intro hits gen mc mh ctx
  by_cases hne : hits = []
  · subst hne
    rw [ask_nil]
    exact ⟨by simp, Or.inl rfl⟩
  · by_cases hg : gateAbstain (minDist (narrowHits hits ctx)) mc
      (narrowHits hits ctx).length mh = true
    · rw [ask_gate_true gen hne hg]
      exact ⟨by simp, Or.inl rfl⟩
    · rw [ask_gate_false gen hne (Bool.not_eq_true _ ▸ hg)]
      exact ⟨by simp, Or.inr rfl⟩

/-- C7, witness: the dichotomy evaluated on the concrete answering
request. -/
theorem C7_abstained_field_witness :
    ((ask [⟨"A", "t", mkRat 1 10⟩] (some "Paris")
        (mkRat 65 100) 1 4).abstained = some true ↔
      (ask [⟨"A", "t", mkRat 1 10⟩] (some "Paris")
        (mkRat 65 100) 1 4).citations = []) ∧
    ((ask [⟨"A", "t", mkRat 1 10⟩] (some "Paris")
        (mkRat 65 100) 1 4).abstained = some true ∨
      (ask [⟨"A", "t", mkRat 1 10⟩] (some "Paris")
        (mkRat 65 100) 1 4).abstained = none) :=
  C7_abstained_field [⟨"A", "t", mkRat 1 10⟩] (some "Paris")
    (mkRat 65 100) 1 4

/-- C8: a non-abstaining `ask` response comes with a non-empty narrowed
hit set, every narrowed hit belongs to the selected document, and the
response's single citation names that same document. -/
theorem C8_citation_invariant :
    ∀ (hits : List Hit) (gen : Option String) (mc : ℚ) (mh ctx : ℤ),
      (ask hits gen mc mh ctx).abstained ≠ some true →
      narrowHits hits ctx ≠ [] ∧
      (∀ h ∈ narrowHits hits ctx, h.doc_uri = bestDoc hits) ∧
      (ask hits gen mc mh ctx).citations = [bestDoc hits] := by
  intro hits gen mc mh ctx habs
  by_cases hne : hits = []
  · subst hne
    rw [ask_nil] at habs
    exact absurd rfl habs
  · by_cases hg : gateAbstain (minDist (narrowHits hits ctx)) mc
      (narrowHits hits ctx).length mh = true
    · rw [ask_gate_true gen hne hg] at habs
      exact absurd rfl habs
    · refine ⟨narrowHits_ne_nil hits ctx hne,
        fun h hm => (mem_narrowHits hm).2, ?_⟩
      rw [ask_gate_false gen hne (Bool.not_eq_true _ ▸ hg)]

/-- C8, witness: the invariant on the concrete answering request. -/
theorem C8_citation_invariant_witness :
    (ask [⟨"A", "t", mkRat 1 10⟩] (some "Paris")
        (mkRat 65 100) 1 4).abstained ≠ some true ∧
    (narrowHits [⟨"A", "t", mkRat 1 10⟩] 4 ≠ [] ∧
      (∀ h ∈ narrowHits [⟨"A", "t", mkRat 1 10⟩] 4,
        h.doc_uri = bestDoc [⟨"A", "t", mkRat 1 10⟩]) ∧
      (ask [⟨"A", "t", mkRat 1 10⟩] (some "Paris")
        (mkRat 65 100) 1 4).citations =
        [bestDoc [⟨"A", "t", mkRat 1 10⟩]]) :=
  ⟨by decide, C8_citation_invariant [⟨"A", "t", mkRat 1 10⟩] (some "Paris")
    (mkRat 65 100) 1 4 (by decide)⟩

/-- C10: when the gate passes and the generator returns `None` or the
empty string, `ask` still returns the answering response — empty answer
text after stripping, the single citation to the selected document, no
`abstained` key — and the graph's `_reason_node` likewise succeeds with an
empty answer; an empty generation is never turned into an abstention or an
error. -/
theorem C10_empty_generation :
    (∀ (hits : List Hit) (mc : ℚ) (mh ctx : ℤ) (genRes : Option String),
      hits ≠ [] →
      gateAbstain (minDist (narrowHits hits ctx)) mc
        (narrowHits hits ctx).length mh = false →
      (genRes = none ∨ genRes = some "") →
      (ask hits genRes mc mh ctx).answer = "" ∧
      (ask hits genRes mc mh ctx).citations = [bestDoc hits] ∧
      (ask hits genRes mc mh ctx).abstained = none) ∧
    (∀ (s : QAState) (dh : List Hit) (b : String),
      s.doc_hits = some dh → s.best_doc = some b →
      ∃ s4, reasonNode (fun _ => none) s = Except.ok s4 ∧
        s4.answer = some "" ∧ s4.citations = some [b]) := by
  constructor
  · intro hits mc mh ctx genRes hne hg hgen
    rw [ask_gate_false genRes hne hg]
    have hempty : pyStrip (genRes.getD "") = "" := by
      rcases hgen with rfl | rfl <;> rfl
    exact ⟨hempty, rfl, rfl⟩
  · intro s dh b hdh hb
    unfold reasonNode
    rw [hdh, hb]
    exact ⟨_, rfl, rfl, rfl⟩

/-- C10, witness: a concrete gate-passing request whose generator returns
`None` yields the empty answer with the citation kept. -/
theorem C10_empty_generation_witness :
    (([⟨"A", "t", mkRat 1 10⟩] : List Hit) ≠ [] ∧
      gateAbstain (minDist (narrowHits [⟨"A", "t", mkRat 1 10⟩] 4))
        (mkRat 65 100) (narrowHits [⟨"A", "t", mkRat 1 10⟩] 4).length 1 =
        false ∧
      ((none : Option String) = none ∨ (none : Option String) = some "")) ∧
    ((ask [⟨"A", "t", mkRat 1 10⟩] none (mkRat 65 100) 1 4).answer = "" ∧
      (ask [⟨"A", "t", mkRat 1 10⟩] none (mkRat 65 100) 1 4).citations =
        [bestDoc [⟨"A", "t", mkRat 1 10⟩]] ∧
      (ask [⟨"A", "t", mkRat 1 10⟩] none
        (mkRat 65 100) 1 4).abstained = none) :=
  ⟨⟨by decide, by decide, Or.inl rfl⟩,
    C10_empty_generation.1 [⟨"A", "t", mkRat 1 10⟩] (mkRat 65 100) 1 4 none
      (by decide) (by decide) (Or.inl rfl)⟩

end AgenticRag
